/-
Verification of the batch-classification pipeline of a live-stream chat
analysis tool (Streamlit app `app.py` plus `utils/csv_processor.py`).

The Python source is shallowly embedded: pure helpers become Lean
functions, the pickle-based checkpoint file becomes an explicit
`Option (List PTok)` state (the content of the save file at
`st.session_state.analysis_save_path`, `none` = file absent), and
fallible operations return `Option`/`Except`.  Python floats are
modelled as exact rationals.
-/
import Mathlib

namespace LsChat

/-! ## Data model

`ClassifiedRecord` models one row of the analysis result that
`save_intermediate_results` pickles: display time, author, text and the
two classification fields (`チャットの属性`, `チャット感情`). -/

structure ClassifiedRecord where
  displayTime : String
  username : String
  originalText : String
  attr : String
  sentiment : String
deriving DecidableEq, Repr

/-! ## Checkpoint store (`save_intermediate_results`, app.py:641-668)

The pickle byte stream is modelled at token granularity: `PTok.num`
stands for a pickled integer (the list length), `PTok.str` for a pickled
string field.  `pickle.dump` writes the token stream; `pickle.load`
parses one complete object and fails (raises, caught by the source and
turned into `None`) on a truncated or otherwise malformed stream —
modelled by `decodeBlob` returning `none`.  Trailing tokens after a
complete object are ignored, as `pickle.load` ignores trailing bytes. -/

inductive PTok where
  | num : Nat → PTok
  | str : String → PTok
deriving DecidableEq, Repr

/-- Serialization of one record: its five string fields in order. -/
def encodeRec (r : ClassifiedRecord) : List PTok :=
  [.str r.displayTime, .str r.username, .str r.originalText,
   .str r.attr, .str r.sentiment]

/-- Serialization of the pickled results list: length prefix, then the
fields of each record. -/
def encodeRecords (rs : List ClassifiedRecord) : List PTok :=
  .num rs.length :: (rs.map encodeRec).flatten

/-- Parse `n` records from a token stream; trailing tokens are ignored.
A stream that ends (or derails) before `n` records were read is
malformed: `none`. -/
def decodeRecs : Nat → List PTok → Option (List ClassifiedRecord)
  | 0, _ => some []
  | n+1, .str a :: .str b :: .str c :: .str d :: .str e :: rest =>
      (decodeRecs n rest).map (fun t => ⟨a, b, c, d, e⟩ :: t)
  | _+1, _ => none

/-- `pickle.load` on a stored blob. -/
def decodeBlob : List PTok → Option (List ClassifiedRecord)
  | .num n :: rest => decodeRecs n rest
  | _ => none

/-- The three actions of `save_intermediate_results(action, results)`. -/
inductive SaveAction where
  | save : List ClassifiedRecord → SaveAction
  | load : SaveAction
  | clear : SaveAction

/-- `save_intermediate_results` (app.py:641-668) acting on the
checkpoint-file state.  Returns the new file state and, for `load`, the
recovered results.
* `save`: `open(save_path, 'wb')` then `pickle.dump(results, f)` — the
  file ends up holding exactly the new blob (exceptions are printed and
  swallowed; the happy path is modelled).
* `load`: returns `None` when the file is absent or `pickle.load`
  raises; otherwise the unpickled results.
* `clear`: `os.remove(save_path)` — file absent afterwards, no error if
  already absent. -/
def save_intermediate_results (st : Option (List PTok)) :
    SaveAction → Option (List PTok) × Option (List ClassifiedRecord)
  | .save rs => (some (encodeRecords rs), none)
  | .load =>
      (st, match st with
           | none => none
           | some blob => decodeBlob blob)
  | .clear => (none, none)

/-- File state after a completed `save`. -/
def saveCheckpoint (st : Option (List PTok)) (rs : List ClassifiedRecord) :
    Option (List PTok) :=
  (save_intermediate_results st (.save rs)).1

/-- Results recovered by a `load`. -/
def loadCheckpoint (st : Option (List PTok)) : Option (List ClassifiedRecord) :=
  (save_intermediate_results st .load).2

/-- Every file state the store can be observed in if the process is
killed during a `save`: `open(save_path, 'wb')` truncates the file
first, after which each prefix of the new blob is a possible content at
the moment of the kill. -/
def saveIntermediates (rs : List ClassifiedRecord) : List (Option (List PTok)) :=
  (List.range ((encodeRecords rs).length + 1)).map
    (fun k => some ((encodeRecords rs).take k))

/-- The resume-availability check (app.py:524-536): load the saved blob,
count its rows; any exception is swallowed, leaving "no resume". -/
def resumeAvailable (st : Option (List PTok)) : Bool :=
  match loadCheckpoint st with
  | some rs => decide (0 < rs.length)
  | none => false

/-- Concrete records used to instantiate theorems. -/
def recA : ClassifiedRecord :=
  ⟨"00:01", "alice", "which one?", "商品への質問", "ポジティブ"⟩

def recB : ClassifiedRecord :=
  ⟨"00:02", "bob", "nice", "感想", "ポジティブ"⟩

/-! ## String primitives

Python string operations used by the source, modelled over `List Char`
(kernel-friendly; `String` in this toolchain wraps a `List Char`).
`str.strip()` / `int()` strip Unicode whitespace — the model covers the
ASCII whitespace characters, which is what the theorems exercise. -/

/-- `sep.split`-style splitting of a character list on a separator. -/
def splitCharsOn (sep : Char) : List Char → List (List Char)
  | [] => [[]]
  | c :: cs =>
      let rest := splitCharsOn sep cs
      if c = sep then [] :: rest
      else match rest with
           | [] => [[c]]
           | g :: gs => (c :: g) :: gs

/-- Python `s.split(sep)` for a one-character separator (keeps empty
fields, as Python does). -/
def pySplit (s : String) (sep : Char) : List String :=
  (splitCharsOn sep s.data).map List.asString

def isPySpace (c : Char) : Bool :=
  c = ' ' ∨ c = '\t' ∨ c = '\n' ∨ c = '\r' ∨ c = '\x0b' ∨ c = '\x0c'

/-- Python `s.strip()`. -/
def pyStrip (s : String) : String :=
  (((s.data.dropWhile isPySpace).reverse.dropWhile isPySpace).reverse).asString

/-- Is `p` a prefix of `l`? -/
def charsStartWith : List Char → List Char → Bool
  | [], _ => true
  | _ :: _, [] => false
  | p :: ps, c :: cs => p = c && charsStartWith ps cs

/-- Does `pat` occur as a contiguous substring of `hay`
(`re.search` on a literal pattern)? -/
def listContainsSub (pat : List Char) : List Char → Bool
  | [] => charsStartWith pat []
  | c :: cs => charsStartWith pat (c :: cs) || listContainsSub pat cs

/-- `re.search(pat, s)` for a literal (unanchored) pattern. -/
def strContainsSub (s pat : String) : Bool :=
  listContainsSub pat.data s.data

/-- `re.search(pat ++ "$", s)` for a literal end-anchored pattern. -/
def strEndsWithLit (s pat : String) : Bool :=
  charsStartWith pat.data.reverse s.data.reverse

/-- `name.startswith(pre)` / glob literal prefix. -/
def strStartsWithLit (s pre : String) : Bool :=
  charsStartWith pre.data s.data

/-! ## Python `int()` and `parse_time` (app.py:212-223)

`int(str)` accepts optional surrounding whitespace, an optional sign and
a non-empty digit string in which single underscores may separate
digits; anything else raises `ValueError`. -/

/-- Digit tail after a leading digit was seen: digits, with single
underscores allowed between digits. -/
def readDigits : List Char → Nat → Option Nat
  | [], acc => some acc
  | c :: rest, acc =>
      if c.isDigit then readDigits rest (acc * 10 + (c.toNat - 48))
      else if c = '_' then
        match rest with
        | d :: _ => if d.isDigit then readDigits rest acc else none
        | [] => none
      else none

/-- Unsigned decimal literal (non-empty, leading char a digit). -/
def pyIntNat (l : List Char) : Option Nat :=
  match l with
  | [] => none
  | c :: _ => if c.isDigit then readDigits l 0 else none

/-- Python `int(s)`: `some n` on success, `none` when `ValueError`
would be raised. -/
def pyInt (s : String) : Option Int :=
  match (pyStrip s).data with
  | '+' :: rest => (pyIntNat rest).map Int.ofNat
  | '-' :: rest => (pyIntNat rest).map (fun n => -(n : Int))
  | l => (pyIntNat l).map Int.ofNat

/-- Body of `parse_time` on the outcome of `str(time_str).split(':')`:
three or more parts → `h*3600 + m*60 + s` from the first three, exactly
two parts → `h*3600 + m*60`; any `ValueError`/short split → `0`. -/
def parse_time_parts (parts : List String) : Int :=
  if 3 ≤ parts.length then
    match pyInt (parts.getD 0 ""), pyInt (parts.getD 1 ""),
          pyInt (parts.getD 2 "") with
    | some h, some m, some s => h * 3600 + m * 60 + s
    | _, _, _ => 0
  else if parts.length = 2 then
    match pyInt (parts.getD 0 ""), pyInt (parts.getD 1 "") with
    | some h, some m => h * 3600 + m * 60
    | _, _ => 0
  else 0

/-- `parse_time` (app.py:212-223), the nested helper of
`generate_completed_csv`. -/
def parse_time (time_str : String) : Int :=
  parse_time_parts (pySplit time_str ':')

/-- Do the split components form one of the two shapes `parse_time`
recognises, with every needed component `int()`-parseable? -/
def canParseTimeParts (parts : List String) : Bool :=
  match parts.map pyInt with
  | [some _, some _] => true
  | some _ :: some _ :: some _ :: _ => true
  | _ => false

def canParseTime (time_str : String) : Bool :=
  canParseTimeParts (pySplit time_str ':')

/-! ## Report CSV data section (`generate_completed_csv`, app.py:98-238)

The output rows carry the five output columns
`配信時間, username, original_text, チャットの属性, チャット感情`, which
are exactly the fields of `ClassifiedRecord` (`displayTime` = 配信時間).
`df.sort_values('_sort_time', ascending=True)` with `_sort_time =
parse_time(配信時間)` is modelled by a merge sort on that key (the claim
under check only concerns key order and row multiset, which any
`sort_values` kind satisfies). -/

def generate_completed_csv_data (rows : List ClassifiedRecord) :
    List ClassifiedRecord :=
  rows.mergeSort
    (fun a b => decide (parse_time a.displayTime ≤ parse_time b.displayTime))

/-! ## Session API-usage record (app.py:387-393, 588-594, 694-706) -/

/-- `st.session_state.api_usage`; the Python float cost is modelled as
an exact rational. -/
structure ApiUsage where
  prompt_tokens : Nat
  completion_tokens : Nat
  total_tokens : Nat
  estimated_cost_usd : ℚ
deriving DecidableEq, Repr

/-- Initialization of `st.session_state.api_usage` (app.py:387-393). -/
def initial_api_usage : ApiUsage :=
  { prompt_tokens := 0, completion_tokens := 0, total_tokens := 0,
    estimated_cost_usd := 0 }

/-- The fresh-start reset when a new analysis begins (app.py:588-594). -/
def reset_api_usage : ApiUsage :=
  { prompt_tokens := 0, completion_tokens := 0, total_tokens := 0,
    estimated_cost_usd := 0 }

/-- The `api_usage` dict of an analysis result; `Option` fields model
`dict.get(key, 0)`. -/
structure ApiUsageInfo where
  prompt_tokens : Option Nat
  completion_tokens : Option Nat
  total_tokens : Option Nat

/-- `calculate_api_cost` (app.py:61-78). -/
def calculate_api_cost (prompt_tokens completion_tokens : Nat) : ℚ :=
  ((prompt_tokens : ℚ) / 1000000) * (15 / 100)
    + ((completion_tokens : ℚ) / 1000000) * (60 / 100)

/-- Population of `st.session_state.api_usage` from the analysis
result's `api_usage` fields (app.py:694-706). -/
def populate_api_usage (info : ApiUsageInfo) : ApiUsage :=
  let p := info.prompt_tokens.getD 0
  let c := info.completion_tokens.getD 0
  let t := info.total_tokens.getD 0
  { prompt_tokens := p, completion_tokens := c, total_tokens := t,
    estimated_cost_usd := calculate_api_cost p c }

/-- Modelled from the spec: `utils/ai_analyzer.py`
(`analyze_all_comments`'s usage accounting) is not under src/.  Per the
spec (§3 UsageCounters, §4.1), each classification call reports
`(prompt_tokens, completion_tokens)` (0/0 for a failed call) and the
job's `api_usage` is their accumulation, with
`total_tokens = prompt_tokens + completion_tokens`. -/
def accumulate_usage (calls : List (Nat × Nat)) : ApiUsageInfo :=
  { prompt_tokens := some ((calls.map Prod.fst).sum),
    completion_tokens := some ((calls.map Prod.snd).sum),
    total_tokens := some ((calls.map (fun pc => pc.1 + pc.2)).sum) }

/-- The spec's usage-counter invariant. -/
def usage_invariant (u : ApiUsage) : Prop :=
  u.total_tokens = u.prompt_tokens + u.completion_tokens

/-! ## Checkpoint discovery (app.py:514-522)

`glob.glob(os.path.join(tempfile.gettempdir(), "analysis_save_*.pkl"))`
followed by `max(save_files, key=os.path.getmtime)`.  The directory is
modelled as a list of `(filename, mtime)` pairs in listing order;
Python's `max` keeps the first of several maxima, i.e. replaces the
running best only on a strictly greater key. -/

def isSaveFile (name : String) : Bool :=
  strStartsWithLit name "analysis_save_" && strEndsWithLit name ".pkl"

def pickLatest (f : String × Nat) (rest : List (String × Nat)) : String × Nat :=
  rest.foldl (fun best g => if best.2 < g.2 then g else best) f

def discover_latest (files : List (String × Nat)) : Option String :=
  match files.filter (fun f => isSaveFile f.1) with
  | [] => none
  | f :: rest => some (pickLatest f rest).1

/-! ## CSV ingestion (`utils/csv_processor.py`)

A CSV file is a list of raw lines (without the newline); fields come
from splitting a line on `','`.  An empty field stands for pandas `NaN`
(`dropna` drops such rows). -/

def REQUIRED_COLUMNS : List String :=
  ["guest_id", "username", "original_text", "inserted_at"]

/-- Does a raw line contain every required column name once split on
`','` and stripped (csv_processor.py:29-33)? -/
def rowHasRequired (line : String) (required : List String) : Bool :=
  required.all (fun c => ((pySplit line ',').map pyStrip).contains c)

/-- `detect_header_row` (csv_processor.py:10-40): index of the first of
the first `maxRows` lines containing all required columns, else 0. -/
def detect_header_row (lines : List String) (required : List String)
    (maxRows : Nat) : Nat :=
  match (lines.take maxRows).findIdx? (fun l => rowHasRequired l required) with
  | some i => i
  | none => 0

/-- `load_csv` (csv_processor.py:43-73): detect the header row, read
with it (`pd.read_csv(file_path, header=header_row)`: that line becomes
the column names, following lines the data), fail if a required column
is missing, keep only the required columns, and drop rows whose
`original_text` or `inserted_at` is empty (`dropna`).  Returns the
column names and the data rows, each row aligned with
`REQUIRED_COLUMNS`. -/
def load_csv (lines : List String) :
    Except String (List String × List (List String)) :=
  let h := detect_header_row lines REQUIRED_COLUMNS 10
  match lines.drop h with
  | [] => .error "EmptyDataError"
  | headerLine :: dataLines =>
      let cols := pySplit headerLine ','
      let missing := REQUIRED_COLUMNS.filter (fun c => !(cols.contains c))
      if missing.isEmpty then
        let select := fun (l : String) =>
          let fs := pySplit l ','
          REQUIRED_COLUMNS.map (fun c => fs.getD (cols.indexOf c) "")
        let rows := (dataLines.map select).filter
          (fun r => (r.getD 2 "" != "") && (r.getD 3 "" != ""))
        .ok (REQUIRED_COLUMNS, rows)
      else
        .error ("必要な列が見つかりません: " ++ String.intercalate ", " missing)

/-- `f"{n:02d}"`. -/
def pad2 (n : Nat) : String :=
  if n < 10 then "0" ++ toString n else toString n

/-- `format_time_delta` (csv_processor.py:180-184): seconds → `HH:MM`. -/
def format_time_delta (totalSeconds : Nat) : String :=
  pad2 (totalSeconds / 3600) ++ ":" ++ pad2 (totalSeconds % 3600 / 60)

/-- `validate_and_process_data` (csv_processor.py:76-107).
`pd.to_datetime(..., errors="coerce")` is an external library call,
abstracted as the `parse` argument (`none` = `NaT`); rows that fail to
parse are dropped, the rest are sorted by timestamp and `inserted_at`
is rewritten as the relative time `HH:MM` from the first comment
(`convert_to_relative_time`). -/
def validate_and_process_data (parse : String → Option Nat)
    (rows : List (List String)) : Except String (List (List String)) :=
  if rows.isEmpty then .error "データが空です。"
  else
    let parsed := rows.filterMap
      (fun r => (parse (r.getD 3 "")).map (fun t => (t, r)))
    if parsed.isEmpty then .error "有効な日時データがありません。"
    else
      let sorted := parsed.mergeSort (fun a b => decide (a.1 ≤ b.1))
      let t0 := (sorted.headD (0, [])).1
      .ok (sorted.map (fun tr => tr.2.set 3 (format_time_delta (tr.1 - t0))))

/-- Modelled from the spec: `utils/ai_analyzer.py` (`analyze_all_comments`)
is not under src/.  Per the spec (§4.3), the orchestrator issues one
classification call per record and persists checkpoints through the
Checkpoint Store; only the call count and the checkpoint write matter
for the claims here. -/
def analyze_all_comments (rows : List (List String))
    (st : Option (List PTok)) :
    List ClassifiedRecord × Option (List PTok) × Nat :=
  let recs := rows.map
    (fun r => ClassifiedRecord.mk (r.getD 3 "") (r.getD 1 "") (r.getD 2 "")
      "その他" "ニュートラル")
  (recs, saveCheckpoint st recs, rows.length)

/-- The upload-then-analyze page flow (app.py:437-456, 674-677): a
validation failure surfaces as an error before the analysis section
runs, so no classification call is issued and the checkpoint store is
untouched.  Result: analysis outcome, checkpoint-file state,
classification-call count. -/
def upload_and_analyze (parse : String → Option Nat) (lines : List String)
    (st : Option (List PTok)) :
    Except String (List ClassifiedRecord) × Option (List PTok) × Nat :=
  match load_csv lines with
  | .error e => (.error e, st, 0)
  | .ok (_, rows) =>
      match validate_and_process_data parse rows with
      | .error e => (.error e, st, 0)
      | .ok df =>
          let out := analyze_all_comments df st
          (.ok out.1, out.2.1, out.2.2)

/-! ## Question heuristic (`is_question_by_pattern`,
csv_processor.py:226-301)

Every regex in the source is a literal pattern, optionally end-anchored
with `$`; `re.search` on a literal is substring search. -/

/-- End-anchored information-providing patterns: a match means "not a
question" (csv_processor.py:245-251). -/
def information_providing_patterns : List String :=
  ["となります！", "となります。", "となります",
   "でございます！", "でございます。", "でございます",
   "です！", "です。", "ます！", "ます。",
   "となります?", "となります？",
   "でございます?", "でございます？"]

/-- Interrogative words (csv_processor.py:259-263); `re.IGNORECASE` has
no effect on these characters. -/
def question_words : List String :=
  ["何", "いくら", "どこ", "いつ", "どう", "なぜ", "どれ", "どの", "誰",
   "どちら", "なに", "いくつ", "どなた", "どのくらい", "どの程度",
   "どれくらい", "どんな", "どのような", "どういう", "どうやって",
   "なぜ", "なんで"]

/-- Sentence-final question patterns (csv_processor.py:269-274);
unanchored in the source, hence substring search. -/
def question_end_patterns : List String :=
  ["ですか", "ますか", "なんですか", "なんか", "でしょうか", "でしょうか",
   "ですか？", "ますか？", "なんですか？", "でしょうか？",
   "ですか?", "ますか?", "なんですか?", "でしょうか?",
   "か？", "か?", "か。", "か！"]

/-- Negative-question patterns (csv_processor.py:277-280). -/
def negative_question_patterns : List String :=
  ["ないですか", "ませんか", "ないですか？", "ませんか？",
   "ないですか?", "ませんか?", "ない？", "ない?"]

/-- `is_question_by_pattern` (csv_processor.py:226-301). -/
def is_question_by_pattern (comment_text : String) : Bool :=
  if comment_text.data.isEmpty then false
  else
    let t := pyStrip comment_text
    if t.data.isEmpty then false
    else if information_providing_patterns.any (fun p => strEndsWithLit t p)
      then false
    else if question_words.any (fun w => strContainsSub t w) then true
    else if t.data.any (fun c => c = '？' || c = '?') then true
    else if question_end_patterns.any (fun p => strContainsSub t p) then true
    else if negative_question_patterns.any (fun p => strContainsSub t p)
      then true
    else false

/-- Ambient mutable state visible to the classification helpers: the
count of network requests issued and the checkpoint file. -/
structure World where
  networkCalls : Nat
  checkpoint : Option (List PTok)
deriving DecidableEq

/-- The effectful embedding of `is_question_by_pattern`: its body
performs only string/regex operations — no client call, no write — so
running it returns the pure result and leaves the world untouched
(contrast `is_question_by_ai`, which issues a completion request). -/
def is_question_by_pattern_run (w : World) (t : String) : Bool × World :=
  (is_question_by_pattern t, w)

lemma decodeRecs_encode (rs : List ClassifiedRecord) :
    decodeRecs rs.length ((rs.map encodeRec).flatten) = some rs := by
  induction rs with
  | nil => rfl
  | cons r rs ih =>
      simp [encodeRec, decodeRecs, ih]

lemma decodeBlob_encode (rs : List ClassifiedRecord) :
    decodeBlob (encodeRecords rs) = some rs := by
  simp [encodeRecords, decodeBlob, decodeRecs_encode]

lemma load_save (st : Option (List PTok)) (rs : List ClassifiedRecord) :
    loadCheckpoint (saveCheckpoint st rs) = some rs := by
  simp [loadCheckpoint, saveCheckpoint, save_intermediate_results,
    decodeBlob_encode]

lemma pickLatest_mem (f : String × Nat) (rest : List (String × Nat)) :
    pickLatest f rest ∈ f :: rest := by
  induction rest generalizing f with
  | nil => simp [pickLatest]
  | cons r rest ih =>
      have step : pickLatest f (r :: rest)
          = pickLatest (if f.2 < r.2 then r else f) rest := rfl
      by_cases hc : f.2 < r.2
      · rw [step, if_pos hc]
        rcases List.mem_cons.mp (ih r) with h | h
        · rw [h]; exact List.mem_cons.mpr (Or.inr (List.mem_cons_self r rest))
        · exact List.mem_cons.mpr (Or.inr (List.mem_cons.mpr (Or.inr h)))
      · rw [step, if_neg hc]
        rcases List.mem_cons.mp (ih f) with h | h
        · rw [h]; exact List.mem_cons_self f (r :: rest)
        · exact List.mem_cons.mpr (Or.inr (List.mem_cons.mpr (Or.inr h)))

lemma pickLatest_max (f : String × Nat) (rest : List (String × Nat)) :
    ∀ g ∈ f :: rest, g.2 ≤ (pickLatest f rest).2 := by
  induction rest generalizing f with
  | nil =>
      intro g hg
      rcases List.mem_cons.mp hg with h | h
      · subst h; simp [pickLatest]
      · simp at h
  | cons r rest ih =>
      intro g hg
      have step : pickLatest f (r :: rest)
          = pickLatest (if f.2 < r.2 then r else f) rest := rfl
      by_cases hc : f.2 < r.2
      · rw [step, if_pos hc]
        rcases List.mem_cons.mp hg with h | h
        · subst h
          exact le_trans (Nat.le_of_lt hc) (ih r r (List.mem_cons_self r rest))
        · rcases List.mem_cons.mp h with h2 | h2
          · subst h2; exact ih g g (List.mem_cons_self g rest)
          · exact ih r g (List.mem_cons.mpr (Or.inr h2))
      · rw [step, if_neg hc]
        rcases List.mem_cons.mp hg with h | h
        · subst h; exact ih g g (List.mem_cons_self g rest)
        · rcases List.mem_cons.mp h with h2 | h2
          · subst h2
            exact le_trans (Nat.le_of_not_lt hc)
              (ih f f (List.mem_cons_self f rest))
          · exact ih f g (List.mem_cons.mpr (Or.inr h2))

lemma findIdx?_of_first {α} (p : α → Bool) (d : α) :
    ∀ (l : List α) (i : Nat), i < l.length → p (l.getD i d) = true →
      (∀ j, j < i → p (l.getD j d) = false) → l.findIdx? p = some i := by
  intro l
  induction l with
  | nil => intro i hi; simp at hi
  | cons x xs ih =>
      intro i hi hp hbelow
      match i with
      | 0 =>
          simp only [List.getD_cons_zero] at hp
          simp [List.findIdx?_cons, hp]
      | i + 1 =>
          have hx : p x = false := by
            have := hbelow 0 (Nat.succ_pos i)
            simpa using this
          have hi' : i < xs.length := Nat.lt_of_succ_lt_succ hi
          have hp' : p (xs.getD i d) = true := by simpa using hp
          have hbelow' : ∀ j, j < i → p (xs.getD j d) = false := by
            intro j hj
            have := hbelow (j + 1) (Nat.succ_lt_succ hj)
            simpa using this
          have hrec := ih i hi' hp' hbelow'
          simp [List.findIdx?_cons, hx, List.findIdx?_succ, hrec]

lemma getD_take {α} (l : List α) (d : α) {i n : Nat} (h : i < n) :
    (l.take n).getD i d = l.getD i d := by
  simp [List.getD_eq_getElem?_getD, List.getElem?_take_of_lt h]

lemma sum_map_fst_add_snd (calls : List (Nat × Nat)) :
    (calls.map (fun pc => pc.1 + pc.2)).sum
      = (calls.map Prod.fst).sum + (calls.map Prod.snd).sum := by
  induction calls with
  | nil => rfl
  | cons c cs ih =>
      simp only [List.map_cons, List.sum_cons, ih]
      omega

/-! ## Claims -/

/-- C1 (counterexample): the checkpoint save is not atomic as claimed.
`open(save_path, 'wb')` truncates the file before `pickle.dump` writes
the new blob, so the state right after truncation — a reachable state if
the process is killed mid-write — recovers neither the previously saved
records `[recA]` nor the new records `[recA, recB]`. -/
theorem save_not_atomic_counterexample :
    (some ([] : List PTok)) ∈ saveIntermediates [recA, recB] ∧
    loadCheckpoint (some ([] : List PTok))
      ≠ loadCheckpoint (some (encodeRecords [recA])) ∧
    loadCheckpoint (some ([] : List PTok)) ≠ some [recA, recB] := by
  refine ⟨List.mem_map.mpr ⟨0, ?_, rfl⟩, by decide, by decide⟩
  simp [List.mem_range]

/-- C1 (amended): a save overwrites any prior checkpoint in place,
without a write-to-temp-then-rename step.  A completed save leaves
exactly the new state recoverable, but the file is truncated before the
new blob is written, so a kill at that moment leaves a blob from which
nothing is recoverable (load then treats it as absence). -/
theorem save_overwrites_on_completion (old : Option (List PTok))
    (rs : List ClassifiedRecord) :
    loadCheckpoint (saveCheckpoint old rs) = some rs ∧
    loadCheckpoint (some ((encodeRecords rs).take 0)) = none :=
  ⟨load_save old rs, rfl⟩

/-- C2: checkpoint round-trip law — a save followed by a load returns
exactly the records that were saved, and a load when no checkpoint was
ever saved (no file) returns nothing. -/
theorem checkpoint_roundtrip (st : Option (List PTok))
    (rs : List ClassifiedRecord) :
    loadCheckpoint (saveCheckpoint st rs) = some rs ∧
    loadCheckpoint none = none :=
  ⟨load_save st rs, rfl⟩

/-- C3: load returns the last successfully saved state; when no
checkpoint file exists, or the stored blob does not unpickle, it returns
`none` rather than failing, and the resume-availability check likewise
reports no resume point for such a blob. -/
theorem load_treats_corruption_as_absence (st : Option (List PTok))
    (rs : List ClassifiedRecord) (blob : List PTok) :
    loadCheckpoint none = none ∧
    (decodeBlob blob = none →
      loadCheckpoint (some blob) = none ∧
      resumeAvailable (some blob) = false) ∧
    loadCheckpoint (saveCheckpoint st rs) = some rs := by
  refine ⟨rfl, ?_, load_save st rs⟩
  intro hbad
  have hload : loadCheckpoint (some blob) = none := by
    simp [loadCheckpoint, save_intermediate_results, hbad]
  exact ⟨hload, by simp [resumeAvailable, hload]⟩

/-- C3 (witness): a one-token blob that is not a pickled record list
loads as `none` and offers no resume point. -/
theorem load_treats_corruption_as_absence_witness :
    loadCheckpoint (some [PTok.str "x"]) = none ∧
    resumeAvailable (some [PTok.str "x"]) = false :=
  (load_treats_corruption_as_absence none [] [PTok.str "x"]).2.1 (by decide)

/-- C4: the usage-counter invariant
`total_tokens = prompt_tokens + completion_tokens` holds at
initialization, after the fresh-start reset, and after the session
record is populated from the accumulated `api_usage` of an analysis
run. -/
theorem usage_counter_invariant (calls : List (Nat × Nat)) :
    usage_invariant initial_api_usage ∧
    usage_invariant reset_api_usage ∧
    usage_invariant (populate_api_usage (accumulate_usage calls)) := by
  refine ⟨rfl, rfl, ?_⟩
  simp [usage_invariant, populate_api_usage, accumulate_usage,
    sum_map_fst_add_snd]

/-- C5: checkpoint discovery — when no save path is known, the app globs
the temporary directory for `analysis_save_*.pkl` and picks the file
with the greatest modification time; with no matching file, no resume
candidate is selected. -/
theorem discover_latest_picks_max (files : List (String × Nat)) :
    (files.filter (fun f => isSaveFile f.1) = [] →
      discover_latest files = none) ∧
    (∀ f ∈ files.filter (fun f => isSaveFile f.1),
      ∃ g, g ∈ files.filter (fun f => isSaveFile f.1) ∧
        discover_latest files = some g.1 ∧
        ∀ u ∈ files.filter (fun f => isSaveFile f.1), u.2 ≤ g.2) := by
  constructor
  · intro hempty
    simp [discover_latest, hempty]
  · intro f hf
    cases hfil : files.filter (fun f => isSaveFile f.1) with
    | nil => rw [hfil] at hf; simp at hf
    | cons f0 rest =>
        refine ⟨pickLatest f0 rest, ?_, ?_, ?_⟩
        · exact pickLatest_mem f0 rest
        · simp [discover_latest, hfil]
        · intro u hu
          exact pickLatest_max f0 rest u hu

/-- Example temp-directory listing for the discovery witness. -/
def exampleDir : List (String × Nat) :=
  [("analysis_save_a.pkl", 5), ("other.txt", 99), ("analysis_save_b.pkl", 7)]

/-- C5 (witness): on a concrete directory listing the discovery step
returns a checkpoint file of maximal modification time. -/
theorem discover_latest_picks_max_witness :
    ∃ g, g ∈ exampleDir.filter (fun f => isSaveFile f.1) ∧
      discover_latest exampleDir = some g.1 ∧
      ∀ u ∈ exampleDir.filter (fun f => isSaveFile f.1), u.2 ≤ g.2 :=
  (discover_latest_picks_max exampleDir).2 ("analysis_save_a.pkl", 5)
    (by decide)

/-- C6: header auto-detection — the first row among the first 10 lines
containing all required column names is chosen as the header (the
detected index is always within the first 10 lines), and `load_csv`
reads the file with exactly that line as the header row (the data being
the lines after it). -/
theorem header_detected_in_first_ten (lines : List String) (i : Nat) :
    detect_header_row lines REQUIRED_COLUMNS 10 < 10 ∧
    (i < 10 → i < lines.length →
      rowHasRequired (lines.getD i "") REQUIRED_COLUMNS = true →
      (∀ j, j < i → rowHasRequired (lines.getD j "") REQUIRED_COLUMNS = false) →
      detect_header_row lines REQUIRED_COLUMNS 10 = i ∧
      lines.drop (detect_header_row lines REQUIRED_COLUMNS 10)
        = lines.getD i "" :: lines.drop (i + 1)) := by
  constructor
  · unfold detect_header_row
    cases hfi : (lines.take 10).findIdx?
        (fun l => rowHasRequired l REQUIRED_COLUMNS) with
    | none => simp
    | some k =>
        have hk := (List.findIdx?_eq_some_iff_findIdx_eq.mp hfi).1
        simp only [List.length_take] at hk
        simp
        omega
  · intro h10 hlen hp hbelow
    have hi' : i < (lines.take 10).length := by
      simp only [List.length_take]
      omega
    have hp' : rowHasRequired ((lines.take 10).getD i "") REQUIRED_COLUMNS
        = true := by
      rw [getD_take lines "" h10]; exact hp
    have hbelow' : ∀ j, j < i →
        rowHasRequired ((lines.take 10).getD j "") REQUIRED_COLUMNS = false := by
      intro j hj
      rw [getD_take lines "" (Nat.lt_trans hj h10)]
      exact hbelow j hj
    have hfind := findIdx?_of_first
      (fun l => rowHasRequired l REQUIRED_COLUMNS) "" (lines.take 10) i
      hi' hp' hbelow'
    have hdet : detect_header_row lines REQUIRED_COLUMNS 10 = i := by
      unfold detect_header_row
      rw [hfind]
    refine ⟨hdet, ?_⟩
    rw [hdet]
    have hgd : lines.getD i "" = lines[i] := by
      simp [List.getD_eq_getElem?_getD, List.getElem?_eq_getElem hlen]
    rw [hgd]
    exact List.drop_eq_getElem_cons hlen

/-- Example CSV where the header is on the second line. -/
def exampleCsv : List String :=
  ["junk", "guest_id,username,original_text,inserted_at",
   "1,alice,hello,2024-01-01 10:00:00"]

/-- C6 (witness): on a concrete file, the second line (index 1) is
detected and used as the header. -/
theorem header_detected_in_first_ten_witness :
    detect_header_row exampleCsv REQUIRED_COLUMNS 10 = 1 ∧
    exampleCsv.drop (detect_header_row exampleCsv REQUIRED_COLUMNS 10)
      = exampleCsv.getD 1 "" :: exampleCsv.drop 2 :=
  (header_detected_in_first_ten exampleCsv 1).2 (by decide) (by decide)
    (by decide)
    (by
      intro j hj
      have hj0 : j = 0 := Nat.lt_one_iff.mp hj
      subst hj0
      decide)

/-- C7: the data section of the generated report is sorted ascending by
display time — row times, parsed by `parse_time` (`HH:MM` or legacy
`HH:MM:SS` to seconds), are pairwise non-decreasing, and the section is
a permutation of the input rows. -/
theorem report_rows_sorted_by_display_time (rows : List ClassifiedRecord) :
    List.Pairwise
      (fun a b => parse_time a.displayTime ≤ parse_time b.displayTime)
      (generate_completed_csv_data rows) ∧
    List.Perm (generate_completed_csv_data rows) rows := by
  constructor
  · unfold generate_completed_csv_data
    refine List.Pairwise.imp ?_ (List.sorted_mergeSort ?_ ?_ rows)
    · intro a b hab
      exact of_decide_eq_true hab
    · intro a b c h1 h2
      exact decide_eq_true
        (le_trans (of_decide_eq_true h1) (of_decide_eq_true h2))
    · intro a b
      simp only [Bool.or_eq_true, decide_eq_true_eq]
      exact le_total _ _
  · exact List.mergeSort_perm rows _

/-- C8: validation failures are error values raised before any
classification: `load_csv` fails when a required column is missing from
the detected header; `validate_and_process_data` fails on an empty
dataset and when no row has a parseable timestamp; and in the page flow
any such failure yields the error with zero classification calls and an
unchanged checkpoint store. -/
theorem validation_precedes_classification
    (parse : String → Option Nat) (lines : List String)
    (rows : List (List String)) (st : Option (List PTok)) (e : String) :
    (validate_and_process_data parse [] = Except.error "データが空です。") ∧
    (rows ≠ [] → (∀ r ∈ rows, parse (r.getD 3 "") = none) →
      validate_and_process_data parse rows
        = Except.error "有効な日時データがありません。") ∧
    (∀ c ∈ REQUIRED_COLUMNS, ∀ hdr rest,
      lines.drop (detect_header_row lines REQUIRED_COLUMNS 10) = hdr :: rest →
      (pySplit hdr ',').contains c = false →
      ∃ msg, load_csv lines = Except.error msg) ∧
    (load_csv lines = Except.error e →
      upload_and_analyze parse lines st = (Except.error e, st, 0)) ∧
    (∀ cols, load_csv lines = Except.ok (cols, rows) →
      validate_and_process_data parse rows = Except.error e →
      upload_and_analyze parse lines st = (Except.error e, st, 0)) := by
  refine ⟨rfl, ?_, ?_, ?_, ?_⟩
  · intro hne hall
    cases rows with
    | nil => exact absurd rfl hne
    | cons r rs =>
        simp [validate_and_process_data]
        constructor
        · simpa using hall r (List.mem_cons_self r rs)
        · intro x hx
          simpa using hall x (List.mem_cons.mpr (Or.inr hx))
  · intro c hc hdr rest hdrop hnotmem
    have hcmem : c ∈ REQUIRED_COLUMNS.filter
        (fun c2 => !((pySplit hdr ',').contains c2)) :=
      List.mem_filter.mpr ⟨hc, by rw [hnotmem]; rfl⟩
    have hne2 : REQUIRED_COLUMNS.filter
        (fun c2 => !((pySplit hdr ',').contains c2)) ≠ [] :=
      List.ne_nil_of_mem hcmem
    refine ⟨"必要な列が見つかりません: " ++ String.intercalate ", "
      (REQUIRED_COLUMNS.filter (fun c2 => !((pySplit hdr ',').contains c2))),
      ?_⟩
    simp only [load_csv]
    rw [hdrop]
    simp [hne2]
    exact ⟨c, hc, by simpa using hnotmem⟩
  · intro herr
    simp [upload_and_analyze, herr]
  · intro cols hok hval
    simp [upload_and_analyze, hok, hval]

/-- C8 (witness): a file whose header lacks every required column fails
`load_csv`; an empty dataset and an all-unparseable-timestamps dataset
fail `validate_and_process_data`; the failures propagate through the
page flow with zero classification calls and an untouched store. -/
theorem validation_precedes_classification_witness :
    validate_and_process_data (fun _ => none) []
      = Except.error "データが空です。" ∧
    validate_and_process_data (fun _ => none) [["1", "a", "t", "x"]]
      = Except.error "有効な日時データがありません。" ∧
    (∃ msg, load_csv ["x,y"] = Except.error msg) ∧
    upload_and_analyze (fun _ => none) ["x,y"] none
      = (Except.error
          "必要な列が見つかりません: guest_id, username, original_text, inserted_at",
         none, 0) := by
  have H := validation_precedes_classification (fun _ => none) ["x,y"]
    [["1", "a", "t", "x"]] none
    "必要な列が見つかりません: guest_id, username, original_text, inserted_at"
  refine ⟨H.1, ?_, ?_, ?_⟩
  · exact H.2.1 (by decide) (fun r hr => rfl)
  · exact H.2.2.1 "guest_id" (by decide) "x,y" [] (by decide) (by decide)
  · exact H.2.2.2.1 rfl

/-- C9: the fast local question heuristic is a pure function of the
text: running it changes nothing in the ambient world (no checkpoint
write, no network request issued), its answer does not depend on the
world, and two runs on the same input agree. -/
theorem question_heuristic_pure (w w' : World) (t : String) :
    (is_question_by_pattern_run w t).2 = w ∧
    (is_question_by_pattern_run w t).2.networkCalls = w.networkCalls ∧
    (is_question_by_pattern_run w t).1 = (is_question_by_pattern_run w' t).1 ∧
    (is_question_by_pattern_run w t).1 = is_question_by_pattern t :=
  ⟨rfl, rfl, rfl, rfl⟩

/-- C10: `parse_time` is total with the claimed values — an `HH:MM`
split with both components `int()`-parseable yields `h*3600 + m*60`, a
split with three or more parts whose first three are parseable yields
`h*3600 + m*60 + s`, and every string outside these shapes yields 0. -/
theorem parse_time_total_spec (s : String) (h m sec : Int) :
    ((pySplit s ':').map pyInt = [some h, some m] →
      parse_time s = h * 3600 + m * 60) ∧
    (∀ rest, (pySplit s ':').map pyInt = some h :: some m :: some sec :: rest →
      parse_time s = h * 3600 + m * 60 + sec) ∧
    (canParseTime s = false → parse_time s = 0) := by
  have main : ∀ parts : List String,
      (parts.map pyInt = [some h, some m] →
        parse_time_parts parts = h * 3600 + m * 60) ∧
      (∀ rest, parts.map pyInt = some h :: some m :: some sec :: rest →
        parse_time_parts parts = h * 3600 + m * 60 + sec) ∧
      (canParseTimeParts parts = false → parse_time_parts parts = 0) := by
    intro parts
    match parts with
    | [] => exact ⟨by simp, by simp, fun _ => rfl⟩
    | [a] => exact ⟨by simp, by simp, fun _ => rfl⟩
    | [a, b] =>
        refine ⟨?_, ?_, ?_⟩
        · intro hmap
          simp only [List.map_cons, List.map_nil, List.cons.injEq,
            and_true] at hmap
          obtain ⟨ha, hb⟩ := hmap
          simp [parse_time_parts, ha, hb]
        · intro rest hmap
          simp at hmap
        · intro hcp
          cases ha : pyInt a with
          | none => simp [parse_time_parts, ha]
          | some x =>
              cases hb : pyInt b with
              | none => simp [parse_time_parts, ha, hb]
              | some y =>
                  exfalso
                  simp [canParseTimeParts, ha, hb] at hcp
    | a :: b :: c :: rest0 =>
        refine ⟨?_, ?_, ?_⟩
        · intro hmap
          simp at hmap
        · intro rest hmap
          simp only [List.map_cons, List.cons.injEq] at hmap
          obtain ⟨ha, hb, hc, -⟩ := hmap
          have hlen : 3 ≤ (a :: b :: c :: rest0).length := by
            simp
          simp [parse_time_parts, hlen, ha, hb, hc]
        · intro hcp
          cases ha : pyInt a with
          | none => simp [parse_time_parts, ha]
          | some x =>
              cases hb : pyInt b with
              | none => simp [parse_time_parts, ha, hb]
              | some y =>
                  cases hc : pyInt c with
                  | none => simp [parse_time_parts, ha, hb, hc]
                  | some z =>
                      exfalso
                      simp [canParseTimeParts, ha, hb, hc] at hcp
  exact main (pySplit s ':')

/-- C10 (witness): concrete evaluations — `HH:MM`, legacy `HH:MM:SS`,
and an unparseable string. -/
theorem parse_time_total_spec_witness :
    parse_time "1:02" = 1 * 3600 + 2 * 60 ∧
    parse_time "0:01:03" = 0 * 3600 + 1 * 60 + 3 ∧
    parse_time "abc" = 0 :=
  ⟨(parse_time_total_spec "1:02" 1 2 0).1 (by decide),
   (parse_time_total_spec "0:01:03" 0 1 3).2.1 [] (by decide),
   (parse_time_total_spec "abc" 0 0 0).2.2 (by decide)⟩

end LsChat
